import Mathlib

/-!
Verification of the WebHDFS C++ client (WebHdfsClient.h / WebHdfsClient.cpp).

The development shallowly embeds the client:
- JSON values produced by the external jsoncpp library are an inductive type;
  the jsoncpp parser itself is an external collaborator and is passed around
  as an abstract function of type String to Option Json.
- libcurl exchanges are modelled by an Exchange record describing what the
  network delivered (body chunks, live and final status codes, redirect
  target, transport failure) plus the behaviour of the caller-supplied sink.
- Machine integers (HTTP status codes, C long) are Int; byte strings are
  List Nat with each byte below 256.
- Fallible operations return Except String, carrying the text passed to the
  WebHDFS Exception constructor.
-/

namespace WebHDFSProof

/-- JSON values as produced by jsoncpp (null, bool, number, string, array,
object). Numbers are collapsed to Int: the fields the client reads are
integral. -/
inductive Json where
  | null : Json
  | bool (b : Bool) : Json
  | num (n : Int) : Json
  | str (s : String) : Json
  | arr (xs : List Json) : Json
  | obj (kvs : List (String × Json)) : Json

/-- Member lookup in the association list of a JSON object. -/
def findMember : List (String × Json) → String → Option Json
  | [], _ => none
  | (k, v) :: rest, key => if k = key then some v else findMember rest key

/-- Json::Value::isMember and member access: some member for objects that
hold the key, none otherwise (jsoncpp isMember is false on null and the
client only queries it on parser output). -/
def Json.getMember : Json → String → Option Json
  | .obj kvs, key => findMember kvs key
  | _, _ => none

/-- Json::Value::get(key, default): the member when present, else the
supplied default. -/
def Json.getD (v : Json) (key : String) (dflt : Json) : Json :=
  match v.getMember key with
  | some m => m
  | none => dflt

/-- Json::Value::asString on the value shapes the client reads: strings are
returned as-is, null is the empty string, booleans and numbers render. -/
def Json.asString : Json → String
  | .str s => s
  | .null => ""
  | .bool b => if b then "true" else "false"
  | .num n => toString n
  | .arr _ => ""
  | .obj _ => ""

/-- Json::Value::asInt64 / asUInt64 / asInt collapsed onto Int: numbers are
returned, booleans are 0 or 1, everything else is 0. -/
def Json.asInt : Json → Int
  | .num n => n
  | .bool b => if b then 1 else 0
  | _ => 0

/-- Json::Value::operator[](key): the member when present, else null (jsoncpp
returns a null reference for an absent member). -/
def Json.indexKey (v : Json) (key : String) : Json :=
  match v.getMember key with
  | some m => m
  | none => .null

/-- Iteration over a Json::Value with begin and end: the elements of an
array, the member values of an object, nothing for scalars or null. -/
def Json.iterVals : Json → List Json
  | .arr xs => xs
  | .obj kvs => kvs.map (fun kv => kv.2)
  | _ => []

/-- Fields of a server error reply (struct RemoteError). -/
structure RemoteError where
  type : String
  message : String
deriving DecidableEq

/-- tryParseRemoteError from WebHdfsClient.cpp, with the jsoncpp parser
abstracted as the parse argument. -/
def tryParseRemoteError (parse : String → Option Json) (s : String) :
    Option RemoteError :=
  match parse s with
  | none => none
  | some v =>
    if (v.getMember "RemoteException").isSome then
      let ev := v.indexKey "RemoteException"
      some { type := (ev.getD "exception" (.str "Unknown")).asString
             message := (ev.getD "message" (.str "")).asString }
    else
      none

/-- The WebHDFS Exception value: its what() string as built by the
constructor in WebHdfsClient.cpp. -/
structure Exc where
  what : String
deriving DecidableEq

/-- Exception::Exception(error): prefixes the error text. -/
def Exception (error : String) : Exc :=
  { what := "WebHDFS client error: " ++ error }

/-- isalnum for a byte in the C locale: ASCII digits and letters. -/
def isalnumByte (b : Nat) : Bool :=
  (48 ≤ b && b ≤ 57) || (65 ≤ b && b ≤ 90) || (97 ≤ b && b ≤ 122)

/-- The byte passes through urlEncode unescaped: isalnum(c) or one of
- _ . ~ / (codes 45 95 46 126 47). -/
def allowedByte (b : Nat) : Bool :=
  isalnumByte b || b = 45 || b = 95 || b = 46 || b = 126 || b = 47

/-- One hex digit as emitted by a stream with std::hex and no uppercase
flag: 0-9 then lowercase a-f. -/
def hexChar (n : Nat) : Char :=
  if n < 10 then Char.ofNat (48 + n) else Char.ofNat (87 + n)

/-- Encoding of a single byte by UrlBuilder::urlEncode: pass-through when
accepted, otherwise a percent escape of the unsigned byte value printed with
width 2, fill 0 and std::hex (lowercase). -/
def urlEncodeByte (b : Nat) : String :=
  if allowedByte b then
    String.singleton (Char.ofNat b)
  else
    "%" ++ String.singleton (hexChar (b % 256 / 16)) ++
      String.singleton (hexChar (b % 256 % 16))

/-- UrlBuilder::urlEncode: the loop appends each character or its escape to
the output stream. The input is the byte sequence of the std::string. -/
def urlEncode (bytes : List Nat) : String :=
  bytes.foldl (fun acc b => acc ++ urlEncodeByte b) ""

/-- A byte string rendered back as text, for the error messages that embed
the remote path. -/
def bytesToString (bytes : List Nat) : String :=
  String.mk (bytes.map (fun b => Char.ofNat b))

/-- State of Client::UrlBuilder: host, port and user name given at
construction. -/
structure UrlBuilder where
  host : String
  port : Int
  userName : String
deriving DecidableEq

/-- The m_prefix member of UrlBuilder. -/
def UrlBuilder.urlBase (ub : UrlBuilder) : String :=
  "http://" ++ ub.host ++ ":" ++ toString ub.port ++ "/webhdfs/v1"

/-- UrlBuilder::makeUrl(remotePath, operation). -/
def UrlBuilder.makeUrl (ub : UrlBuilder) (remotePath : List Nat)
    (operation : String) : String :=
  ub.urlBase ++ urlEncode remotePath ++
    (if ub.userName = "" then "?op=" else "?user.name=" ++ ub.userName ++ "&op=") ++
    operation

/-- UrlBuilder::makeUrl(remotePath, operation, opts): the two-argument form
followed by the serialized options query fragment. -/
def UrlBuilder.makeUrlOpts (ub : UrlBuilder) (remotePath : List Nat)
    (operation : String) (optsQuery : String) : String :=
  ub.makeUrl remotePath operation ++ optsQuery

/-- HTTP method of HttpClient::Request::Type. -/
inductive ReqType where
  | GET
  | PUT
  | POST
  | DELETE
deriving DecidableEq

/-- HttpClient::Request with its in-class defaults; the stream pointers are
abstracted to presence flags (the bytes they carry are supplied by the
Exchange). -/
structure Request where
  type : ReqType := .GET
  url : String := ""
  followRedirect : Bool := false
  hasDataSink : Bool := false
  hasDataSource : Bool := false
  expectedResponseCode : Int := 0
deriving DecidableEq

/-- HttpClient::Reply with its in-class defaults. RESPONSE_CODE_CLIENT_ERROR
is the literal -1. -/
structure Reply where
  responseCode : Int := 0
  unexpectedResponseContent : String := ""
  clientError : String := ""
  redirectUrl : String := ""
deriving DecidableEq

/-- State threaded through the writeCallback invocations of one exchange:
the Reply being built, the bytes written to the data sink, and whether a
callback returned a short count (libcurl then aborts the transfer). -/
structure CbState where
  reply : Reply := {}
  sinkContent : String := ""
  aborted : Bool := false
deriving DecidableEq

/-- What the network and the caller-supplied sink do during one
curl_easy_perform: the response body chunks handed to the write callback,
the status code CURLINFO_RESPONSE_CODE reports while the body arrives and
whether that query succeeds, per-chunk sink health, a transport failure of
the exchange itself (none is CURLE_OK), the message libcurl reports when a
write callback returned short, the final status code, and the redirect
target libcurl recorded, if any. -/
structure Exchange where
  chunks : List String := []
  liveCode : Int := 0
  getinfoOk : Bool := true
  sinkWriteOk : Nat → Bool := fun _ => true
  curlError : Option String := none
  writeErrorMsg : String := "Failure writing output to destination"
  finalCode : Int := 0
  redirectTarget : Option String := none

/-- One invocation of ReplyHandler::writeCallback on one chunk. Mirrors the
source order: capture the live status on first call (recording a client
error and returning 0 when the query fails), buffer the chunk when the live
status differs from the expected one, otherwise forward it to the sink and
return 0 when the sink write left the stream in a failed state. A returned
count short of the chunk size aborts the transfer. -/
def writeCallbackStep (expected : Int) (hasSink : Bool) (getinfoOk : Bool)
    (liveCode : Int) (sinkOk : Bool) (st : CbState) (chunk : String) : CbState :=
  if st.aborted then
    st
  else if st.reply.responseCode = 0 && !getinfoOk then
    { st with
      reply := { st.reply with
                 responseCode := -1
                 clientError := "libcurl getinfo failed" }
      aborted := chunk ≠ "" }
  else
    let code := if st.reply.responseCode = 0 then liveCode else st.reply.responseCode
    if expected ≠ code then
      { st with
        reply := { st.reply with
                   responseCode := code
                   unexpectedResponseContent :=
                     st.reply.unexpectedResponseContent ++ chunk } }
    else if hasSink then
      { st with
        reply := { st.reply with responseCode := code }
        sinkContent := st.sinkContent ++ chunk
        aborted := !sinkOk && chunk ≠ "" }
    else
      { st with reply := { st.reply with responseCode := code } }

/-- The write callbacks of one exchange, in order, numbering chunks from i. -/
def runCallbacksFrom (expected : Int) (hasSink : Bool) (getinfoOk : Bool)
    (liveCode : Int) (sinkOk : Nat → Bool) :
    Nat → CbState → List String → CbState
  | _, st, [] => st
  | i, st, c :: cs =>
    runCallbacksFrom expected hasSink getinfoOk liveCode sinkOk (i + 1)
      (writeCallbackStep expected hasSink getinfoOk liveCode (sinkOk i) st c) cs

/-- All write callbacks of an exchange for a request, from the initial
state. -/
def runWriteCallbacks (req : Request) (ex : Exchange) : CbState :=
  runCallbacksFrom req.expectedResponseCode req.hasDataSink ex.getinfoOk
    ex.liveCode ex.sinkWriteOk 0 {} ex.chunks

/-- The unexpected-status error text built by HttpClient::make via a
stringstream. -/
def unexpectedStatusMsg (code : Int) (content : String) : String :=
  "unexpected server response code: " ++ toString code ++
    (if content ≠ "" then " (" ++ content ++ ")" else "")

/-- HttpClient::make for the non-POST methods: run the exchange, resurface a
recorded callback error or the transport error, read the final status code,
capture the redirect target when redirects were not auto-followed, and
check the final status against the expected one, preferring a parsed
remote-exception message over the generic unexpected-status error. Returns
the Reply together with the bytes the sink received. -/
def makeCore (parse : String → Option Json) (req : Request) (ex : Exchange) :
    Except String (Reply × String) :=
  let st := runWriteCallbacks req ex
  let curlFailure : Option String :=
    if st.aborted then some ex.writeErrorMsg else ex.curlError
  match curlFailure with
  | some msg =>
    if st.reply.responseCode = -1 then .error st.reply.clientError
    else .error msg
  | none =>
    let reply1 := { st.reply with responseCode := ex.finalCode }
    let reply2 :=
      if !req.followRedirect then
        match ex.redirectTarget with
        | some u => { reply1 with redirectUrl := u }
        | none => reply1
      else reply1
    if reply2.responseCode ≠ req.expectedResponseCode then
      match tryParseRemoteError parse reply2.unexpectedResponseContent with
      | some re => .error ("remote error: " ++ re.message)
      | none =>
        .error (unexpectedStatusMsg reply2.responseCode
          reply2.unexpectedResponseContent)
    else
      .ok (reply2, st.sinkContent)

/-- HttpClient::make: the POST arm of the method switch throws before the
exchange is performed; the other methods run the exchange. -/
def make (parse : String → Option Json) (req : Request) (ex : Exchange) :
    Except String (Reply × String) :=
  match req.type with
  | .POST => .error "Post requests not implemented"
  | _ => makeCore parse req ex

/-- The response body literal checked by makeDir, remove and rename. -/
def boolTrueBody : String := "\x7b\"boolean\":true\x7d"

/-- Phase-1 request of Client::writeFile: PUT to the CREATE url, no body,
redirects not followed (Request default), expected status 307. -/
def writeFileReq1 (ub : UrlBuilder) (remotePath : List Nat)
    (optsQuery : String) : Request :=
  { type := .PUT
    url := ub.makeUrlOpts remotePath "CREATE" optsQuery
    expectedResponseCode := 307 }

/-- Phase-2 request of Client::writeFile: PUT to the redirect target with
the data source as body, expected status 201. -/
def writeFileReq2 (redirectUrl : String) : Request :=
  { type := .PUT
    url := redirectUrl
    hasDataSource := true
    expectedResponseCode := 201 }

/-- Client::writeFile over an abstract HttpClient::make, returning the
outcome together with the requests issued, in order. -/
def writeFileTrace (mk : Request → Except String Reply) (ub : UrlBuilder)
    (remotePath : List Nat) (optsQuery : String) :
    Except String Unit × List Request :=
  let req1 := writeFileReq1 ub remotePath optsQuery
  match mk req1 with
  | .error e => (.error e, [req1])
  | .ok reply =>
    if reply.redirectUrl = "" then
      (.error "protocol error: no redirection to data node", [req1])
    else
      let req2 := writeFileReq2 reply.redirectUrl
      match mk req2 with
      | .error e => (.error e, [req1, req2])
      | .ok _ => (.ok (), [req1, req2])

/-- Request issued by Client::readFile. -/
def readFileReq (ub : UrlBuilder) (remotePath : List Nat)
    (optsQuery : String) : Request :=
  { type := .GET
    url := ub.makeUrlOpts remotePath "OPEN" optsQuery
    followRedirect := true
    hasDataSink := true
    expectedResponseCode := 200 }

/-- Request issued by Client::makeDir (the sink is an internal
ostringstream). -/
def makeDirReq (ub : UrlBuilder) (remoteDirPath : List Nat)
    (optsQuery : String) : Request :=
  { type := .PUT
    url := ub.makeUrlOpts remoteDirPath "MKDIRS" optsQuery
    hasDataSink := true
    expectedResponseCode := 200 }

/-- Request issued by Client::listDir. -/
def listDirReq (ub : UrlBuilder) (remoteDirPath : List Nat) : Request :=
  { type := .GET
    url := ub.makeUrl remoteDirPath "LISTSTATUS"
    followRedirect := true
    hasDataSink := true
    expectedResponseCode := 200 }

/-- Request issued by Client::remove. -/
def removeReq (ub : UrlBuilder) (remotePath : List Nat)
    (optsQuery : String) : Request :=
  { type := .DELETE
    url := ub.makeUrlOpts remotePath "DELETE" optsQuery
    hasDataSink := true
    expectedResponseCode := 200 }

/-- Request issued by Client::rename: the destination is appended to the
query unencoded. -/
def renameReq (ub : UrlBuilder) (remotePath : List Nat)
    (newRemotePath : String) : Request :=
  { type := .PUT
    url := ub.makeUrl remotePath "RENAME" ++ "&destination=" ++ newRemotePath
    hasDataSink := true
    expectedResponseCode := 200 }

/-- Client::makeDir: issue the MKDIRS request into an internal always-good
sink and require status 200 with the exact boolean-true body. -/
def makeDir (parse : String → Option Json) (ub : UrlBuilder)
    (remoteDirPath : List Nat) (optsQuery : String) (ex : Exchange) :
    Except String Unit :=
  let req := makeDirReq ub remoteDirPath optsQuery
  match make parse req { ex with sinkWriteOk := fun _ => true } with
  | .error e => .error e
  | .ok (reply, body) =>
    if reply.responseCode ≠ req.expectedResponseCode ∨ body ≠ boolTrueBody then
      .error ("can't create dir " ++ bytesToString remoteDirPath ++
        ", reply:" ++ body)
    else
      .ok ()

/-- PathObjectType of a FileStatus. -/
inductive PathObjectType where
  | FILE
  | DIRECTORY
deriving DecidableEq

/-- FileStatus as filled by Client::listDir. -/
structure FileStatus where
  accessTime : Int
  blockSize : Int
  group : String
  length : Int
  modificationTime : Int
  owner : String
  pathSuffix : String
  permission : String
  replication : Int
  type : PathObjectType
deriving DecidableEq

/-- The field-by-field mapping of one listing element in Client::listDir;
the type is FILE exactly when the type string compares equal to FILE. -/
def toFileStatus (sv : Json) : FileStatus :=
  { accessTime := (sv.indexKey "accessTime").asInt
    blockSize := (sv.indexKey "blockSize").asInt
    group := (sv.indexKey "group").asString
    length := (sv.indexKey "length").asInt
    modificationTime := (sv.indexKey "modificationTime").asInt
    owner := (sv.indexKey "owner").asString
    pathSuffix := (sv.indexKey "pathSuffix").asString
    permission := (sv.indexKey "permission").asString
    replication := (sv.indexKey "replication").asInt
    type := if (sv.indexKey "type").asString = "FILE" then .FILE else .DIRECTORY }

/-- Client::listDir: issue the LISTSTATUS request into an internal sink; a
body that fails to parse is a hard error; otherwise iterate the value at
FileStatuses then FileStatus and map each element. -/
def listDir (parse : String → Option Json) (ub : UrlBuilder)
    (remoteDirPath : List Nat) (ex : Exchange) :
    Except String (List FileStatus) :=
  match make parse (listDirReq ub remoteDirPath)
      { ex with sinkWriteOk := fun _ => true } with
  | .error e => .error e
  | .ok (_, body) =>
    match parse body with
    | some v =>
      .ok ((Json.iterVals ((v.indexKey "FileStatuses").indexKey
        "FileStatus")).map toFileStatus)
    | none => .error "Can't parse dir listing"

/-- Client::remove: issue the DELETE request and require the exact
boolean-true body. -/
def remove (parse : String → Option Json) (ub : UrlBuilder)
    (remotePath : List Nat) (optsQuery : String) (ex : Exchange) :
    Except String Unit :=
  match make parse (removeReq ub remotePath optsQuery)
      { ex with sinkWriteOk := fun _ => true } with
  | .error e => .error e
  | .ok (_, body) =>
    if body ≠ boolTrueBody then
      .error ("Can't delete " ++ bytesToString remotePath)
    else
      .ok ()

/-- Client::rename: issue the RENAME request and require the exact
boolean-true body. -/
def rename (parse : String → Option Json) (ub : UrlBuilder)
    (remotePath : List Nat) (newRemotePath : String) (ex : Exchange) :
    Except String Unit :=
  match make parse (renameReq ub remotePath newRemotePath)
      { ex with sinkWriteOk := fun _ => true } with
  | .error e => .error e
  | .ok (_, body) =>
    if body ≠ boolTrueBody then
      .error ("Can't rename " ++ bytesToString remotePath)
    else
      .ok ()

/-- ClientOptions with the defaults set by its constructor. -/
structure ClientOptions where
  connectionTimeout : Int := 0
  dataTransferTimeout : Int := 0
  userName : String := ""

/-- Observable state a Client holds after construction: its UrlBuilder and
the timeouts it applied to the transport (applied only when positive). -/
structure ClientState where
  urlBuilder : UrlBuilder
  appliedConnectTimeout : Option Int
  appliedDataTransferTimeout : Option Int
deriving DecidableEq

/-- Client::Client(host, port, opts). -/
def clientInit (host : String) (port : Int) (opts : ClientOptions) :
    ClientState :=
  { urlBuilder := { host := host, port := port, userName := opts.userName }
    appliedConnectTimeout :=
      if opts.connectionTimeout > 0 then some opts.connectionTimeout else none
    appliedDataTransferTimeout :=
      if opts.dataTransferTimeout > 0 then some opts.dataTransferTimeout
      else none }

/-- Client::Client(host, opts): delegates to the two-argument constructor
with port 50070. -/
def clientInitDefaultPort (host : String) (opts : ClientOptions) :
    ClientState :=
  clientInit host 50070 opts

/-! Helper lemmas. -/

lemma str_append_assoc (a b c : String) : a ++ b ++ c = a ++ (b ++ c) := by
  apply String.ext
  simp [String.data_append, List.append_assoc]

lemma str_append_empty (s : String) : s ++ "" = s := by
  apply String.ext
  simp [String.data_append]

lemma str_empty_append (s : String) : "" ++ s = s := by
  apply String.ext
  simp [String.data_append]

lemma str_foldl_append_shift (cs : List String) (a : String) :
    cs.foldl (fun r s => r ++ s) a = a ++ cs.foldl (fun r s => r ++ s) "" := by
  induction cs generalizing a with
  | nil => simp [str_append_empty]
  | cons c cs ih =>
    simp only [List.foldl_cons]
    rw [ih ("" ++ c), ih (a ++ c), str_empty_append, str_append_assoc]

lemma str_join_cons (c : String) (cs : List String) :
    String.join (c :: cs) = c ++ String.join cs := by
  simp only [String.join, List.foldl_cons]
  rw [str_foldl_append_shift cs ("" ++ c), str_empty_append]

/-- When the live status equals the expected one, the status query works and
every sink write succeeds, the callbacks forward the whole body to the sink
(when one is given), capture nothing, record nothing and never abort. -/
lemma runFrom_match (expected : Int) (hasSink : Bool) (sOk : Nat → Bool)
    (hall : ∀ j, sOk j = true) :
    ∀ (chunks : List String) (i : Nat) (st : CbState),
      st.aborted = false →
      (st.reply.responseCode = 0 ∨ st.reply.responseCode = expected) →
      (runCallbacksFrom expected hasSink true expected sOk i st chunks).aborted
          = false ∧
        (runCallbacksFrom expected hasSink true expected sOk i st
            chunks).reply.clientError = st.reply.clientError ∧
        (runCallbacksFrom expected hasSink true expected sOk i st
            chunks).reply.unexpectedResponseContent
          = st.reply.unexpectedResponseContent ∧
        (runCallbacksFrom expected hasSink true expected sOk i st
            chunks).sinkContent
          = st.sinkContent ++ (if hasSink then String.join chunks else "") ∧
        ((runCallbacksFrom expected hasSink true expected sOk i st
            chunks).reply.responseCode = 0 ∨
          (runCallbacksFrom expected hasSink true expected sOk i st
            chunks).reply.responseCode = expected) ∧
        (runCallbacksFrom expected hasSink true expected sOk i st
            chunks).reply.redirectUrl = st.reply.redirectUrl := by
  intro chunks
  induction chunks with
  | nil =>
    intro i st hab hrc
    refine ⟨hab, rfl, rfl, ?_, hrc, rfl⟩
    cases hasSink <;> simp [runCallbacksFrom, String.join, str_append_empty]
  | cons c cs ih =>
    intro i st hab hrc
    have hcode : (if st.reply.responseCode = 0 then expected
        else st.reply.responseCode) = expected := by
      rcases hrc with h | h <;> simp [h]
    cases hasSink with
    | true =>
      have hstep : writeCallbackStep expected true true expected (sOk i) st c
          = { st with
              reply := { st.reply with responseCode := expected }
              sinkContent := st.sinkContent ++ c
              aborted := false } := by
        simp only [writeCallbackStep, hab, hcode]
        simp [hall i]
      rw [runCallbacksFrom, hstep]
      obtain ⟨h1, h2, h3, h4, h5, h6⟩ := ih (i + 1)
        { st with
          reply := { st.reply with responseCode := expected }
          sinkContent := st.sinkContent ++ c
          aborted := false }
        rfl (Or.inr rfl)
      refine ⟨h1, h2, h3, ?_, h5, h6⟩
      rw [h4]
      simp [str_join_cons, str_append_assoc]
    | false =>
      have hstep : writeCallbackStep expected false true expected (sOk i) st c
          = { st with reply := { st.reply with responseCode := expected } } := by
        simp only [writeCallbackStep, hab, hcode]
        simp
      rw [runCallbacksFrom, hstep]
      obtain ⟨h1, h2, h3, h4, h5, h6⟩ := ih (i + 1)
        { st with reply := { st.reply with responseCode := expected } }
        hab (Or.inr rfl)
      exact ⟨h1, h2, h3, h4, h5, h6⟩

/-- When the live status differs from the expected one and the status query
works, the callbacks buffer the whole body as diagnostic content, write
nothing to the sink, record nothing and never abort. -/
lemma runFrom_mismatch (expected live : Int) (hasSink : Bool)
    (sOk : Nat → Bool) (hne : expected ≠ live) :
    ∀ (chunks : List String) (i : Nat) (st : CbState),
      st.aborted = false →
      (st.reply.responseCode = 0 ∨ st.reply.responseCode = live) →
      (runCallbacksFrom expected hasSink true live sOk i st chunks).aborted
          = false ∧
        (runCallbacksFrom expected hasSink true live sOk i st
            chunks).reply.clientError = st.reply.clientError ∧
        (runCallbacksFrom expected hasSink true live sOk i st
            chunks).reply.unexpectedResponseContent
          = st.reply.unexpectedResponseContent ++ String.join chunks ∧
        (runCallbacksFrom expected hasSink true live sOk i st
            chunks).sinkContent = st.sinkContent ∧
        ((runCallbacksFrom expected hasSink true live sOk i st
            chunks).reply.responseCode = 0 ∨
          (runCallbacksFrom expected hasSink true live sOk i st
            chunks).reply.responseCode = live) ∧
        (runCallbacksFrom expected hasSink true live sOk i st
            chunks).reply.redirectUrl = st.reply.redirectUrl := by
  intro chunks
  induction chunks with
  | nil =>
    intro i st hab hrc
    exact ⟨hab, rfl, (str_append_empty _).symm, rfl, hrc, rfl⟩
  | cons c cs ih =>
    intro i st hab hrc
    have hcode : (if st.reply.responseCode = 0 then live
        else st.reply.responseCode) = live := by
      rcases hrc with h | h <;> simp [h]
    have hstep : writeCallbackStep expected hasSink true live (sOk i) st c
        = { st with
            reply := { st.reply with
                       responseCode := live
                       unexpectedResponseContent :=
                         st.reply.unexpectedResponseContent ++ c } } := by
      simp only [writeCallbackStep, hab, hcode]
      simp [hne]
    rw [runCallbacksFrom, hstep]
    obtain ⟨h1, h2, h3, h4, h5, h6⟩ := ih (i + 1)
      { st with
        reply := { st.reply with
                   responseCode := live
                   unexpectedResponseContent :=
                     st.reply.unexpectedResponseContent ++ c } }
      hab (Or.inr rfl)
    refine ⟨h1, h2, ?_, h4, h5, h6⟩
    rw [h3]
    simp only [str_join_cons, str_append_assoc]

lemma make_eq_makeCore (parse : String → Option Json) (req : Request)
    (ex : Exchange) (h : req.type ≠ .POST) :
    make parse req ex = makeCore parse req ex := by
  unfold make
  split
  next h2 => exact absurd h2 h
  next => rfl

lemma makeCore_error_recorded (parse : String → Option Json) (req : Request)
    (ex : Exchange) (hab : (runWriteCallbacks req ex).aborted = true)
    (hrc : (runWriteCallbacks req ex).reply.responseCode = -1) :
    makeCore parse req ex = .error (runWriteCallbacks req ex).reply.clientError := by
  simp [makeCore, hab, hrc]

lemma makeCore_error_unrecorded (parse : String → Option Json) (req : Request)
    (ex : Exchange) (hab : (runWriteCallbacks req ex).aborted = true)
    (hrc : (runWriteCallbacks req ex).reply.responseCode ≠ -1) :
    makeCore parse req ex = .error ex.writeErrorMsg := by
  simp [makeCore, hab, hrc]

lemma makeCore_ok_parts (parse : String → Option Json) (req : Request)
    (ex : Exchange) (hab : (runWriteCallbacks req ex).aborted = false)
    (hcurl : ex.curlError = none)
    (hcode : ex.finalCode = req.expectedResponseCode) :
    ∃ reply,
      makeCore parse req ex = .ok (reply, (runWriteCallbacks req ex).sinkContent)
        ∧ reply.responseCode = req.expectedResponseCode
        ∧ reply.unexpectedResponseContent
            = (runWriteCallbacks req ex).reply.unexpectedResponseContent := by
  cases hfr : req.followRedirect with
  | false =>
    cases hrt : ex.redirectTarget with
    | none =>
      exact ⟨{ (runWriteCallbacks req ex).reply with
               responseCode := req.expectedResponseCode },
        by simp [makeCore, hab, hcurl, hfr, hrt, hcode], rfl, rfl⟩
    | some u =>
      exact ⟨{ (runWriteCallbacks req ex).reply with
               responseCode := req.expectedResponseCode, redirectUrl := u },
        by simp [makeCore, hab, hcurl, hfr, hrt, hcode], rfl, rfl⟩
  | true =>
    exact ⟨{ (runWriteCallbacks req ex).reply with
             responseCode := req.expectedResponseCode },
      by simp [makeCore, hab, hcurl, hfr, hcode], rfl, rfl⟩

lemma makeCore_mismatch (parse : String → Option Json) (req : Request)
    (ex : Exchange) (hab : (runWriteCallbacks req ex).aborted = false)
    (hcurl : ex.curlError = none)
    (hcode : ex.finalCode ≠ req.expectedResponseCode) :
    makeCore parse req ex =
      match tryParseRemoteError parse
          (runWriteCallbacks req ex).reply.unexpectedResponseContent with
      | some re => .error ("remote error: " ++ re.message)
      | none =>
        .error (unexpectedStatusMsg ex.finalCode
          (runWriteCallbacks req ex).reply.unexpectedResponseContent) := by
  cases hfr : req.followRedirect <;> cases hrt : ex.redirectTarget <;>
    simp [makeCore, hab, hcurl, hfr, hrt, hcode]

/-- An exchange whose transport layer behaves: the status query works, the
status seen while the body arrives equals the final one, the sink never
fails, and curl itself reports success. -/
def cleanEx (chunks : List String) (fc : Int) (wem : String)
    (rt : Option String) : Exchange :=
  { chunks := chunks
    liveCode := fc
    getinfoOk := true
    sinkWriteOk := fun _ => true
    curlError := none
    writeErrorMsg := wem
    finalCode := fc
    redirectTarget := rt }

lemma runWriteCallbacks_cleanEx_match (req : Request) (chunks : List String)
    (wem : String) (rt : Option String) :
    (runWriteCallbacks req
        (cleanEx chunks req.expectedResponseCode wem rt)).aborted = false
      ∧ (runWriteCallbacks req
          (cleanEx chunks req.expectedResponseCode wem rt)).sinkContent
        = (if req.hasDataSink then String.join chunks else "")
      ∧ (runWriteCallbacks req
          (cleanEx chunks req.expectedResponseCode wem rt)).reply.unexpectedResponseContent
        = "" := by
  obtain ⟨h1, h2, h3, h4, h5, h6⟩ :=
    runFrom_match req.expectedResponseCode req.hasDataSink (fun _ => true)
      (fun _ => rfl) chunks 0 {} rfl (Or.inl rfl)
  exact ⟨h1, h4, h3⟩

lemma runWriteCallbacks_cleanEx_mismatch (req : Request)
    (chunks : List String) (fc : Int) (wem : String) (rt : Option String)
    (hne : fc ≠ req.expectedResponseCode) :
    (runWriteCallbacks req (cleanEx chunks fc wem rt)).aborted = false
      ∧ (runWriteCallbacks req (cleanEx chunks fc wem rt)).sinkContent = ""
      ∧ (runWriteCallbacks req
          (cleanEx chunks fc wem rt)).reply.unexpectedResponseContent
        = String.join chunks := by
  obtain ⟨h1, h2, h3, h4, h5, h6⟩ :=
    runFrom_mismatch req.expectedResponseCode fc req.hasDataSink
      (fun _ => true) (fun h => hne h.symm) chunks 0 {} rfl (Or.inl rfl)
  exact ⟨h1, h4, h3⟩

lemma make_cleanEx_ok (parse : String → Option Json) (req : Request)
    (chunks : List String) (wem : String) (rt : Option String)
    (hpost : req.type ≠ .POST) (hsink : req.hasDataSink = true) :
    ∃ reply,
      make parse req (cleanEx chunks req.expectedResponseCode wem rt)
          = .ok (reply, String.join chunks)
        ∧ reply.responseCode = req.expectedResponseCode := by
  obtain ⟨h1, h2, h3⟩ := runWriteCallbacks_cleanEx_match req chunks wem rt
  obtain ⟨reply, hr, hrc, hru⟩ :=
    makeCore_ok_parts parse req (cleanEx chunks req.expectedResponseCode wem rt)
      h1 rfl rfl
  refine ⟨reply, ?_, hrc⟩
  rw [make_eq_makeCore parse _ _ hpost, hr, h2, hsink]
  rfl

lemma make_cleanEx_mismatch (parse : String → Option Json) (req : Request)
    (chunks : List String) (fc : Int) (wem : String) (rt : Option String)
    (hpost : req.type ≠ .POST) (hne : fc ≠ req.expectedResponseCode) :
    make parse req (cleanEx chunks fc wem rt) =
      match tryParseRemoteError parse (String.join chunks) with
      | some re => .error ("remote error: " ++ re.message)
      | none => .error (unexpectedStatusMsg fc (String.join chunks)) := by
  obtain ⟨h1, h2, h3⟩ :=
    runWriteCallbacks_cleanEx_mismatch req chunks fc wem rt hne
  rw [make_eq_makeCore parse _ _ hpost,
    makeCore_mismatch parse req _ h1 rfl hne, h3]
  rfl

lemma make_cleanEx_mismatch_error (parse : String → Option Json)
    (req : Request) (chunks : List String) (fc : Int) (wem : String)
    (rt : Option String) (hpost : req.type ≠ .POST)
    (hne : fc ≠ req.expectedResponseCode) :
    ∃ e, make parse req (cleanEx chunks fc wem rt) = .error e := by
  rw [make_cleanEx_mismatch parse req chunks fc wem rt hpost hne]
  cases tryParseRemoteError parse (String.join chunks) <;> exact ⟨_, rfl⟩

/-! Claim C6: the percent encoder. -/

/-- A lowercase hexadecimal digit: 0-9 or a-f. -/
def isLowerHexChar (c : Char) : Bool :=
  (48 ≤ c.toNat && c.toNat ≤ 57) || (97 ≤ c.toNat && c.toNat ≤ 102)

/-- Numeric value of a hexadecimal digit character. -/
def hexVal (c : Char) : Nat :=
  if c.toNat ≤ 57 then c.toNat - 48 else c.toNat - 87

lemma hexChar_lower : ∀ n, n < 16 → isLowerHexChar (hexChar n) = true := by
  decide

lemma hexVal_hexChar : ∀ n, n < 16 → hexVal (hexChar n) = n := by
  decide

/-- C6 counterexample: the escape of the byte of the question mark is the
lowercase %3f, not the uppercase %3F the claim asserts. -/
theorem urlEncode_lowercase_hex :
    urlEncode [63] = "%3f" ∧ urlEncode [63] ≠ "%3F" := by
  decide

/-- C6 (amended: lowercase hex, not uppercase): urlEncode concatenates a
per-byte encoding; a byte passes through unescaped exactly when it is
alphanumeric or one of minus, underscore, dot, tilde, slash; every other
byte becomes a three-character escape of a percent sign and the two
lowercase hex digits of its unsigned value; the question mark is escaped. -/
theorem urlEncode_spec (bs : List Nat) (h : ∀ b ∈ bs, b < 256) :
    urlEncode bs = String.join (bs.map urlEncodeByte)
      ∧ (∀ b ∈ bs,
          (allowedByte b = true ↔
            (isalnumByte b = true ∨ b = 45 ∨ b = 95 ∨ b = 46 ∨ b = 126 ∨ b = 47))
          ∧ (allowedByte b = true →
              urlEncodeByte b = String.singleton (Char.ofNat b))
          ∧ (allowedByte b = false →
              urlEncodeByte b
                  = String.mk ['%', hexChar (b / 16), hexChar (b % 16)]
                ∧ isLowerHexChar (hexChar (b / 16)) = true
                ∧ isLowerHexChar (hexChar (b % 16)) = true
                ∧ hexVal (hexChar (b / 16)) * 16 + hexVal (hexChar (b % 16)) = b))
      ∧ allowedByte 63 = false := by
  refine ⟨(List.foldl_map _ _ _ _).symm, ?_, rfl⟩
  intro b hb
  have hlt : b < 256 := h b hb
  have hmod : b % 256 = b := Nat.mod_eq_of_lt hlt
  have hdiv16 : b / 16 < 16 := Nat.div_lt_of_lt_mul (by omega)
  have hmod16 : b % 16 < 16 := Nat.mod_lt _ (by norm_num)
  refine ⟨?_, ?_, ?_⟩
  · simp [allowedByte]
    tauto
  · intro ha
    simp [urlEncodeByte, ha]
  · intro ha
    refine ⟨?_, hexChar_lower _ hdiv16, hexChar_lower _ hmod16, ?_⟩
    · simp only [urlEncodeByte, ha, Bool.false_eq_true, if_false, hmod]
      rfl
    · rw [hexVal_hexChar _ hdiv16, hexVal_hexChar _ hmod16]
      omega

/-- C6 witness: the amended encoding law applied to the two-byte input of a
question mark followed by the letter a. -/
theorem urlEncode_spec_witness :
    (∀ b ∈ ([63, 97] : List Nat), b < 256)
      ∧ urlEncode [63, 97] = String.join ([63, 97].map urlEncodeByte)
      ∧ urlEncode [63, 97] = "%3fa" :=
  ⟨by decide, (urlEncode_spec [63, 97] (by decide)).1, by decide⟩

/-! Claim C8: the remote-exception parser. -/

/-- C8: tryParseRemoteError is populated exactly when the body parses to a
value whose top-level object has a RemoteException member, and then reads
the exception field (default Unknown) and the message field (default
empty). -/
theorem tryParseRemoteError_spec (parse : String → Option Json) (s : String) :
    ((tryParseRemoteError parse s).isSome ↔
      ∃ v, parse s = some v ∧ (v.getMember "RemoteException").isSome)
    ∧ (∀ v ev, parse s = some v → v.getMember "RemoteException" = some ev →
        tryParseRemoteError parse s = some
          { type := match ev.getMember "exception" with
                    | some j => j.asString
                    | none => "Unknown"
            message := match ev.getMember "message" with
                       | some j => j.asString
                       | none => "" }) := by
  cases hp : parse s with
  | none =>
    constructor
    · simp [tryParseRemoteError, hp]
    · intro v ev hv
      exact absurd hv (by simp)
  | some v =>
    cases hm : v.getMember "RemoteException" with
    | none =>
      constructor
      · simp [tryParseRemoteError, hp, hm]
      · intro v2 ev hv2 hm2
        obtain rfl : v = v2 := by injection hv2
        exact absurd hm2 (by simp [hm])
    | some ev =>
      constructor
      · constructor
        · intro _
          exact ⟨v, rfl, by simp [hm]⟩
        · intro _
          simp [tryParseRemoteError, hp, hm]
      · intro v2 ev2 hv2 hm2
        obtain rfl : v = v2 := by injection hv2
        rw [hm] at hm2
        obtain rfl : ev = ev2 := by injection hm2
        simp only [tryParseRemoteError, hp, hm, Option.isSome_some, if_true]
        have hix : v.indexKey "RemoteException" = ev := by
          simp [Json.indexKey, hm]
        rw [hix]
        cases he : ev.getMember "exception" <;>
          cases hmsg : ev.getMember "message" <;>
            simp [Json.getD, he, hmsg, Json.asString]

/-- The 403 access-control reply body used by the regression scenarios. -/
def body403 : String :=
  "\x7b\"RemoteException\":\x7b\"exception\":\"AccessControlException\",\"message\":\"Permission denied\"\x7d\x7d"

/-- The jsoncpp value of the RemoteException member of body403. -/
def remoteExc403 : Json :=
  .obj [("exception", .str "AccessControlException"),
        ("message", .str "Permission denied")]

/-- The jsoncpp value of body403. -/
def json403 : Json := .obj [("RemoteException", remoteExc403)]

/-- A concrete jsoncpp behaviour: parses the 403 error body and nothing
else. -/
def parseDemo : String → Option Json :=
  fun s => if s = body403 then some json403 else none

/-- C8 witness: the parser law applied to the 403 access-control body. -/
theorem tryParseRemoteError_spec_witness :
    parseDemo body403 = some json403
      ∧ json403.getMember "RemoteException" = some remoteExc403
      ∧ tryParseRemoteError parseDemo body403
        = some { type := "AccessControlException", message := "Permission denied" } :=
  ⟨rfl, rfl,
    (tryParseRemoteError_spec parseDemo body403).2 json403 remoteExc403 rfl rfl⟩

/-! Claim C9: the default service port. -/

/-- C9: the single-host constructor equals the two-argument constructor at
port 50070, and the URL base it builds carries that port. -/
theorem default_port_50070 (host : String) (opts : ClientOptions) :
    clientInitDefaultPort host opts = clientInit host 50070 opts
      ∧ (clientInitDefaultPort host opts).urlBuilder.port = 50070
      ∧ (clientInitDefaultPort host opts).urlBuilder.urlBase
        = "http://" ++ host ++ ":" ++ "50070" ++ "/webhdfs/v1" := by
  refine ⟨rfl, rfl, ?_⟩
  have ht : toString (50070 : Int) = "50070" := by decide
  show "http://" ++ host ++ ":" ++ toString (50070 : Int) ++ "/webhdfs/v1"
    = "http://" ++ host ++ ":" ++ "50070" ++ "/webhdfs/v1"
  rw [ht]

/-! Claim C10: the exception message format. -/

/-- C10: the exception what-string is exactly the fixed prefix followed by
the underlying error text. -/
theorem exception_message_format (e : String) :
    (Exception e).what = "WebHDFS client error: " ++ e
      ∧ (Exception e).what.length
        = ("WebHDFS client error: " : String).length + e.length :=
  ⟨rfl, String.length_append _ _⟩

/-! Claim C1: the two-phase write protocol. -/

/-- C1: writeFile first issues a bodyless PUT to the CREATE url with
redirects not followed expecting 307; on a reply without redirect target it
fails with the protocol error having issued no second request; otherwise it
issues exactly one second PUT to the redirect target streaming the source,
expecting 201. -/
theorem writeFile_two_phase (mk : Request → Except String Reply)
    (ub : UrlBuilder) (remotePath : List Nat) (optsQuery : String) :
    (writeFileReq1 ub remotePath optsQuery).type = .PUT
      ∧ (writeFileReq1 ub remotePath optsQuery).url
        = ub.makeUrlOpts remotePath "CREATE" optsQuery
      ∧ (writeFileReq1 ub remotePath optsQuery).hasDataSource = false
      ∧ (writeFileReq1 ub remotePath optsQuery).followRedirect = false
      ∧ (writeFileReq1 ub remotePath optsQuery).expectedResponseCode = 307
      ∧ (writeFileTrace mk ub remotePath optsQuery).2.head?
        = some (writeFileReq1 ub remotePath optsQuery)
      ∧ (∀ r, mk (writeFileReq1 ub remotePath optsQuery) = .ok r →
          r.redirectUrl = "" →
          writeFileTrace mk ub remotePath optsQuery
            = (.error "protocol error: no redirection to data node",
               [writeFileReq1 ub remotePath optsQuery]))
      ∧ (∀ r, mk (writeFileReq1 ub remotePath optsQuery) = .ok r →
          r.redirectUrl ≠ "" →
          (writeFileTrace mk ub remotePath optsQuery).2
              = [writeFileReq1 ub remotePath optsQuery,
                 writeFileReq2 r.redirectUrl]
            ∧ (writeFileReq2 r.redirectUrl).type = .PUT
            ∧ (writeFileReq2 r.redirectUrl).url = r.redirectUrl
            ∧ (writeFileReq2 r.redirectUrl).hasDataSource = true
            ∧ (writeFileReq2 r.redirectUrl).followRedirect = false
            ∧ (writeFileReq2 r.redirectUrl).expectedResponseCode = 201) := by
  refine ⟨rfl, rfl, rfl, rfl, rfl, ?_, ?_, ?_⟩
  · cases hmk : mk (writeFileReq1 ub remotePath optsQuery) with
    | error e => simp [writeFileTrace, hmk]
    | ok r =>
      by_cases hru : r.redirectUrl = "" <;>
        cases hmk2 : mk (writeFileReq2 r.redirectUrl) <;>
          simp [writeFileTrace, hmk, hru, hmk2]
  · intro r hmk hru
    simp [writeFileTrace, hmk, hru]
  · intro r hmk hru
    cases hmk2 : mk (writeFileReq2 r.redirectUrl) with
    | error e => exact ⟨by simp [writeFileTrace, hmk, hru, hmk2], rfl, rfl, rfl, rfl, rfl⟩
    | ok r2 => exact ⟨by simp [writeFileTrace, hmk, hru, hmk2], rfl, rfl, rfl, rfl, rfl⟩

/-- A host-only UrlBuilder for concrete scenarios. -/
def ubDemo : UrlBuilder := { host := "nn", port := 50070, userName := "" }

/-- The redirect target the name node hands back in the concrete write
scenario. -/
def dnUrl : String := "http://dn:50075/webhdfs/v1/f?op=CREATE"

/-- A concrete make behaviour: replies to the phase-1 CREATE request with a
307 redirect to the data node and accepts everything else. -/
def mkDemo : Request → Except String Reply :=
  fun r => if r.expectedResponseCode = 307 then .ok { redirectUrl := dnUrl }
           else .ok {}

/-- C1 witness: the two-phase law applied to a concrete client whose
phase-1 reply redirects to the data node. -/
theorem writeFile_two_phase_witness :
    mkDemo (writeFileReq1 ubDemo [47, 102] "") = .ok { redirectUrl := dnUrl }
      ∧ dnUrl ≠ ""
      ∧ ((writeFileTrace mkDemo ubDemo [47, 102] "").2
          = [writeFileReq1 ubDemo [47, 102] "", writeFileReq2 dnUrl]
        ∧ (writeFileReq2 dnUrl).type = .PUT
        ∧ (writeFileReq2 dnUrl).url = dnUrl
        ∧ (writeFileReq2 dnUrl).hasDataSource = true
        ∧ (writeFileReq2 dnUrl).followRedirect = false
        ∧ (writeFileReq2 dnUrl).expectedResponseCode = 201) :=
  ⟨rfl, by decide,
    (writeFile_two_phase mkDemo ubDemo [47, 102] "").2.2.2.2.2.2.2
      { redirectUrl := dnUrl } rfl (by decide)⟩

/-! Claim C7: POST is rejected. -/

/-- C7: a POST request makes the engine fail with the not-implemented error
independently of anything the network would do, and no facade operation
builds a POST request. -/
theorem post_not_implemented (parse : String → Option Json) (req : Request)
    (ex ex2 : Exchange) (h : req.type = .POST) :
    make parse req ex = .error "Post requests not implemented"
      ∧ make parse req ex = make parse req ex2
      ∧ (∀ (ub : UrlBuilder) (p : List Nat) (q u np : String),
          (writeFileReq1 ub p q).type ≠ .POST
            ∧ (writeFileReq2 u).type ≠ .POST
            ∧ (readFileReq ub p q).type ≠ .POST
            ∧ (makeDirReq ub p q).type ≠ .POST
            ∧ (listDirReq ub p).type ≠ .POST
            ∧ (removeReq ub p q).type ≠ .POST
            ∧ (renameReq ub p np).type ≠ .POST)
      ∧ (∀ (mk : Request → Except String Reply) (ub : UrlBuilder)
            (p : List Nat) (q : String) (r : Request),
          r ∈ (writeFileTrace mk ub p q).2 → r.type ≠ .POST) := by
  refine ⟨by simp [make, h], by simp [make, h], ?_, ?_⟩
  · intro ub p q u np
    refine ⟨?_, ?_, ?_, ?_, ?_, ?_, ?_⟩ <;> intro hh <;>
      simp [writeFileReq1, writeFileReq2, readFileReq, makeDirReq, listDirReq,
        removeReq, renameReq] at hh
  · intro mk ub p q r hr
    cases hmk : mk (writeFileReq1 ub p q) with
    | error e =>
      simp [writeFileTrace, hmk] at hr
      subst hr
      intro hh
      simp [writeFileReq1] at hh
    | ok rep =>
      by_cases hru : rep.redirectUrl = ""
      · simp [writeFileTrace, hmk, hru] at hr
        subst hr
        intro hh
        simp [writeFileReq1] at hh
      · cases hmk2 : mk (writeFileReq2 rep.redirectUrl) with
        | error e =>
          simp [writeFileTrace, hmk, hru, hmk2] at hr
          rcases hr with hr | hr <;> subst hr <;> intro hh <;>
            simp [writeFileReq1, writeFileReq2] at hh
        | ok rep2 =>
          simp [writeFileTrace, hmk, hru, hmk2] at hr
          rcases hr with hr | hr <;> subst hr <;> intro hh <;>
            simp [writeFileReq1, writeFileReq2] at hh

/-- C7 witness: the POST rejection applied to a concrete POST request. -/
theorem post_not_implemented_witness :
    ({ type := .POST } : Request).type = .POST
      ∧ make parseDemo { type := .POST } {} = .error "Post requests not implemented" :=
  ⟨rfl, (post_not_implemented parseDemo { type := .POST } {} {} rfl).1⟩

/-! Claim C2: unexpected final status raises one error, preferring the
remote-exception message. -/

/-- C2: when a clean exchange ends with a final status different from the
expected one, make raises exactly one error: the remote-error message when
the captured body parses as a RemoteException envelope, otherwise the
generic unexpected-status error whose text contains the status code and,
when the captured body is not empty, the body text. -/
theorem make_unexpected_status (parse : String → Option Json) (req : Request)
    (chunks : List String) (fc : Int) (wem : String) (rt : Option String)
    (hpost : req.type ≠ .POST) (hne : fc ≠ req.expectedResponseCode) :
    ∃ msg, make parse req (cleanEx chunks fc wem rt) = .error msg
      ∧ ((∃ re, tryParseRemoteError parse (String.join chunks) = some re
            ∧ msg = "remote error: " ++ re.message)
        ∨ (tryParseRemoteError parse (String.join chunks) = none
            ∧ msg = unexpectedStatusMsg fc (String.join chunks)
            ∧ (∃ a b, msg = a ++ (toString fc ++ b))
            ∧ (String.join chunks ≠ "" →
                ∃ a b, msg = a ++ (String.join chunks ++ b)))) := by
  rw [make_cleanEx_mismatch parse req chunks fc wem rt hpost hne]
  cases hp : tryParseRemoteError parse (String.join chunks) with
  | some re => exact ⟨_, rfl, Or.inl ⟨re, rfl, rfl⟩⟩
  | none =>
    refine ⟨_, rfl, Or.inr ⟨rfl, rfl, ?_, ?_⟩⟩
    · refine ⟨"unexpected server response code: ",
        (if String.join chunks ≠ "" then
          " (" ++ String.join chunks ++ ")" else ""), ?_⟩
      exact str_append_assoc _ _ _
    · intro hnb
      refine ⟨"unexpected server response code: " ++ toString fc ++ " (",
        ")", ?_⟩
      simp [unexpectedStatusMsg, hnb, str_append_assoc]

/-- The GET request of the 403 regression scenario: a caller-supplied sink
and expected status 200. -/
def reqDemo403 : Request :=
  { type := .GET, hasDataSink := true, expectedResponseCode := 200 }

/-- C2 witness: the unexpected-status law applied to a 403 reply carrying
the access-control RemoteException body; the raised error carries the
remote message Permission denied. -/
theorem make_unexpected_status_witness :
    reqDemo403.type ≠ ReqType.POST
      ∧ (403 : Int) ≠ reqDemo403.expectedResponseCode
      ∧ (∃ msg, make parseDemo reqDemo403 (cleanEx [body403] 403 "werr" none)
            = .error msg
          ∧ ((∃ re, tryParseRemoteError parseDemo (String.join [body403])
                  = some re
                ∧ msg = "remote error: " ++ re.message)
            ∨ (tryParseRemoteError parseDemo (String.join [body403]) = none
                ∧ msg = unexpectedStatusMsg 403 (String.join [body403])
                ∧ (∃ a b, msg = a ++ (toString (403 : Int) ++ b))
                ∧ (String.join [body403] ≠ "" →
                    ∃ a b, msg = a ++ (String.join [body403] ++ b)))))
      ∧ make parseDemo reqDemo403 (cleanEx [body403] 403 "werr" none)
        = .error ("remote error: " ++ "Permission denied") :=
  ⟨by decide, by decide,
    make_unexpected_status parseDemo reqDemo403 [body403] 403 "werr" none
      (by decide) (by decide),
    rfl⟩

/-! Claim C3: the strict boolean-body success criterion of makeDir, remove
and rename. -/

lemma make_then_bodycheck (parse : String → Option Json) (req : Request)
    (chunks : List String) (fc : Int) (wem : String) (rt : Option String)
    (err2 : String) (hpost : req.type ≠ .POST)
    (hsink : req.hasDataSink = true)
    (hexp : req.expectedResponseCode = 200) :
    ((match make parse req (cleanEx chunks fc wem rt) with
      | .error e => (.error e : Except String Unit)
      | .ok (_, body) =>
        if body ≠ boolTrueBody then .error err2 else .ok ())
      = .ok ())
      ↔ (fc = 200 ∧ String.join chunks = boolTrueBody) := by
  constructor
  · intro h
    by_cases hfc : fc = 200
    · subst hfc
      obtain ⟨reply, hr, hrc⟩ :=
        make_cleanEx_ok parse req chunks wem rt hpost hsink
      rw [hexp] at hr
      rw [hr] at h
      by_cases hb : String.join chunks = boolTrueBody
      · exact ⟨rfl, hb⟩
      · simp [hb] at h
    · obtain ⟨e, he⟩ := make_cleanEx_mismatch_error parse req chunks fc wem rt
        hpost (by rw [hexp]; exact hfc)
      rw [he] at h
      exact absurd h (by simp)
  · rintro ⟨hfc, hb⟩
    subst hfc
    obtain ⟨reply, hr, hrc⟩ :=
      make_cleanEx_ok parse req chunks wem rt hpost hsink
    rw [hexp] at hr
    rw [hr]
    simp [hb]

lemma make_then_fullcheck (parse : String → Option Json) (req : Request)
    (chunks : List String) (fc : Int) (wem : String) (rt : Option String)
    (err2f : String → String) (hpost : req.type ≠ .POST)
    (hsink : req.hasDataSink = true)
    (hexp : req.expectedResponseCode = 200) :
    ((match make parse req (cleanEx chunks fc wem rt) with
      | .error e => (.error e : Except String Unit)
      | .ok (reply, body) =>
        if reply.responseCode ≠ req.expectedResponseCode ∨ body ≠ boolTrueBody
        then .error (err2f body) else .ok ())
      = .ok ())
      ↔ (fc = 200 ∧ String.join chunks = boolTrueBody) := by
  constructor
  · intro h
    by_cases hfc : fc = 200
    · subst hfc
      obtain ⟨reply, hr, hrc⟩ :=
        make_cleanEx_ok parse req chunks wem rt hpost hsink
      rw [hexp] at hr
      rw [hr] at h
      by_cases hb : String.join chunks = boolTrueBody
      · exact ⟨rfl, hb⟩
      · simp [hb] at h
    · obtain ⟨e, he⟩ := make_cleanEx_mismatch_error parse req chunks fc wem rt
        hpost (by rw [hexp]; exact hfc)
      rw [he] at h
      exact absurd h (by simp)
  · rintro ⟨hfc, hb⟩
    subst hfc
    obtain ⟨reply, hr, hrc⟩ :=
      make_cleanEx_ok parse req chunks wem rt hpost hsink
    rw [hexp] at hr
    rw [hr]
    simp [hb, hrc, hexp]

/-- C3: over a clean exchange, makeDir, remove and rename succeed exactly
when the final status is 200 and the response body is the exact string of
the boolean-true literal; any deviation raises an error. -/
theorem boolean_ops_strict_body (parse : String → Option Json)
    (ub : UrlBuilder) (path : List Nat) (optsQ newPath : String)
    (chunks : List String) (fc : Int) (wem : String) (rt : Option String)
    (sOk : Nat → Bool) :
    (makeDir parse ub path optsQ
        { cleanEx chunks fc wem rt with sinkWriteOk := sOk } = .ok ()
      ↔ (fc = 200 ∧ String.join chunks = boolTrueBody))
    ∧ (remove parse ub path optsQ
        { cleanEx chunks fc wem rt with sinkWriteOk := sOk } = .ok ()
      ↔ (fc = 200 ∧ String.join chunks = boolTrueBody))
    ∧ (rename parse ub path newPath
        { cleanEx chunks fc wem rt with sinkWriteOk := sOk } = .ok ()
      ↔ (fc = 200 ∧ String.join chunks = boolTrueBody)) :=
  ⟨make_then_fullcheck parse (makeDirReq ub path optsQ) chunks fc wem rt
      (fun body => "can't create dir " ++ bytesToString path ++ ", reply:" ++ body)
      (by intro hh; simp [makeDirReq] at hh) rfl rfl,
    make_then_bodycheck parse (removeReq ub path optsQ) chunks fc wem rt
      ("Can't delete " ++ bytesToString path)
      (by intro hh; simp [removeReq] at hh) rfl rfl,
    make_then_bodycheck parse (renameReq ub path newPath) chunks fc wem rt
      ("Can't rename " ++ bytesToString path)
      (by intro hh; simp [renameReq] at hh) rfl rfl⟩

/-! Claim C4: listDir body parsing. -/

/-- A concrete jsoncpp behaviour: parses only the empty-object body. -/
def parseEmptyObj : String → Option Json :=
  fun s => if s = "\x7b\x7d" then some (.obj []) else none

/-- C4 counterexample: on a 200 reply whose body is the valid JSON empty
object, which lacks the FileStatuses.FileStatus array, listDir silently
returns the empty listing instead of raising the parse error the claim
asserts. -/
theorem listDir_missing_array_empty :
    parseEmptyObj "\x7b\x7d" = some (.obj [])
      ∧ ((Json.obj []).indexKey "FileStatuses").indexKey "FileStatus" = .null
      ∧ listDir parseEmptyObj ubDemo [] (cleanEx ["\x7b\x7d"] 200 "werr" none)
        = .ok [] :=
  ⟨rfl, rfl, rfl⟩

/-- C4 (amended: a missing FileStatuses.FileStatus array is not an error but
yields the empty listing): listDir raises the parse error exactly on bodies
the JSON parser rejects; on parsed bodies it maps the iterated elements of
FileStatuses.FileStatus field-by-field, the type being FILE exactly when
the type string equals FILE and DIRECTORY otherwise. -/
theorem listDir_parse_behavior (parse : String → Option Json)
    (ub : UrlBuilder) (path : List Nat) (chunks : List String) (wem : String)
    (rt : Option String) (sOk : Nat → Bool) :
    (parse (String.join chunks) = none →
      listDir parse ub path { cleanEx chunks 200 wem rt with sinkWriteOk := sOk }
        = .error "Can't parse dir listing")
    ∧ (∀ v, parse (String.join chunks) = some v →
        listDir parse ub path { cleanEx chunks 200 wem rt with sinkWriteOk := sOk }
          = .ok ((Json.iterVals ((v.indexKey "FileStatuses").indexKey
              "FileStatus")).map toFileStatus))
    ∧ (∀ sv : Json,
        (toFileStatus sv).type = .FILE ↔ (sv.indexKey "type").asString = "FILE") := by
  obtain ⟨reply, hr, hrc⟩ :=
    make_cleanEx_ok parse (listDirReq ub path) chunks wem rt
      (by intro hh; simp [listDirReq] at hh) rfl
  have hr2 : make parse (listDirReq ub path)
      { { cleanEx chunks 200 wem rt with sinkWriteOk := sOk } with
        sinkWriteOk := fun _ => true }
      = .ok (reply, String.join chunks) := hr
  refine ⟨?_, ?_, ?_⟩
  · intro hp
    unfold listDir
    rw [hr2]
    simp [hp]
  · intro v hv
    unfold listDir
    rw [hr2]
    simp [hv]
  · intro sv
    unfold toFileStatus
    by_cases hty : (sv.indexKey "type").asString = "FILE" <;> simp [hty]

/-- The jsoncpp value of a FILE listing entry. -/
def fileEntry : Json :=
  .obj [("accessTime", .num 1), ("blockSize", .num 2), ("group", .str "g"),
        ("length", .num 3), ("modificationTime", .num 4), ("owner", .str "o"),
        ("pathSuffix", .str "f"), ("permission", .str "644"),
        ("replication", .num 1), ("type", .str "FILE")]

/-- The jsoncpp value of a DIRECTORY listing entry. -/
def dirEntry : Json :=
  .obj [("accessTime", .num 5), ("blockSize", .num 6), ("group", .str "g2"),
        ("length", .num 7), ("modificationTime", .num 8), ("owner", .str "o2"),
        ("pathSuffix", .str "d"), ("permission", .str "755"),
        ("replication", .num 0), ("type", .str "DIRECTORY")]

/-- The listing body of the two-entry directory scenario. -/
def listingBody : String :=
  "\x7b\"FileStatuses\":\x7b\"FileStatus\":[\x7b\"type\":\"FILE\"\x7d,\x7b\"type\":\"DIRECTORY\"\x7d]\x7d\x7d"

/-- The jsoncpp value of listingBody. -/
def listingJson : Json :=
  .obj [("FileStatuses", .obj [("FileStatus", .arr [fileEntry, dirEntry])])]

/-- A concrete jsoncpp behaviour: parses only the two-entry listing body. -/
def parseListing : String → Option Json :=
  fun s => if s = listingBody then some listingJson else none

/-- C4 witness: the amended listing law applied to a two-entry directory,
one FILE and one DIRECTORY. -/
theorem listDir_parse_behavior_witness :
    parseListing (String.join [listingBody]) = some listingJson
      ∧ listDir parseListing ubDemo []
          { cleanEx [listingBody] 200 "werr" none with
            sinkWriteOk := fun _ => true }
        = .ok ((Json.iterVals ((listingJson.indexKey "FileStatuses").indexKey
            "FileStatus")).map toFileStatus)
      ∧ listDir parseListing ubDemo []
          { cleanEx [listingBody] 200 "werr" none with
            sinkWriteOk := fun _ => true }
        = .ok [toFileStatus fileEntry, toFileStatus dirEntry]
      ∧ (toFileStatus fileEntry).type = .FILE
      ∧ (toFileStatus dirEntry).type = .DIRECTORY :=
  ⟨rfl,
    (listDir_parse_behavior parseListing ubDemo [] [listingBody] "werr" none
      (fun _ => true)).2.1 listingJson rfl,
    rfl, rfl, rfl⟩

/-! Claim C5: callback-originated errors. -/

/-- The GET request of the sink-failure scenario. -/
def reqSinkDemo : Request :=
  { type := .GET, hasDataSink := true, expectedResponseCode := 200 }

/-- An exchange whose sink rejects every write while the transport itself
is healthy. -/
def exSinkFail : Exchange :=
  { chunks := ["ab"], liveCode := 200, finalCode := 200,
    sinkWriteOk := fun _ => false,
    writeErrorMsg := "Failure writing output to destination" }

/-- C5 counterexample: a failing sink write aborts the transfer but records
no callback-originated error, and the engine then fails with the
transport's own write error, contrary to the claim that the recorded
callback error is surfaced. -/
theorem sink_failure_not_recorded :
    (runWriteCallbacks reqSinkDemo exSinkFail).aborted = true
      ∧ (runWriteCallbacks reqSinkDemo exSinkFail).reply.clientError = ""
      ∧ (runWriteCallbacks reqSinkDemo exSinkFail).reply.responseCode ≠ -1
      ∧ make parseDemo reqSinkDemo exSinkFail
        = .error exSinkFail.writeErrorMsg :=
  ⟨rfl, rfl, by decide, rfl⟩

/-- C5 (amended: a sink write failure aborts the transfer but is not
recorded as a callback-originated error, so the engine surfaces the
transport's own write error; a callback-originated error is recorded only
by the in-callback status-query failure, and whenever one was recorded the
engine fails with exactly that recorded error). -/
theorem callback_error_paths (parse : String → Option Json) (req : Request)
    (ex : Exchange) (st : CbState) (chunk : String) (sinkOk : Bool) :
    (st.aborted = false →
      st.reply.responseCode ≠ 0 →
      req.expectedResponseCode = st.reply.responseCode →
      req.hasDataSink = true → sinkOk = false → chunk ≠ "" →
      (writeCallbackStep req.expectedResponseCode req.hasDataSink ex.getinfoOk
          ex.liveCode sinkOk st chunk).aborted = true
        ∧ (writeCallbackStep req.expectedResponseCode req.hasDataSink
            ex.getinfoOk ex.liveCode sinkOk st chunk).reply.clientError
          = st.reply.clientError
        ∧ (writeCallbackStep req.expectedResponseCode req.hasDataSink
            ex.getinfoOk ex.liveCode sinkOk st chunk).reply.responseCode
          = st.reply.responseCode)
    ∧ (req.type ≠ .POST →
        (runWriteCallbacks req ex).aborted = true →
        (runWriteCallbacks req ex).reply.responseCode ≠ -1 →
        make parse req ex = .error ex.writeErrorMsg)
    ∧ (req.type ≠ .POST →
        (runWriteCallbacks req ex).aborted = true →
        (runWriteCallbacks req ex).reply.responseCode = -1 →
        make parse req ex = .error (runWriteCallbacks req ex).reply.clientError) := by
  refine ⟨?_, ?_, ?_⟩
  · intro h1 h2 h3 h4 h5 h6
    refine ⟨?_, ?_, ?_⟩ <;>
      simp [writeCallbackStep, h1, h3, h2, h4, h5, h6]
  · intro hp hab hrc
    rw [make_eq_makeCore parse req ex hp]
    exact makeCore_error_unrecorded parse req ex hab hrc
  · intro hp hab hrc
    rw [make_eq_makeCore parse req ex hp]
    exact makeCore_error_recorded parse req ex hab hrc

/-- The callback state after a first chunk arrived with status 200. -/
def stDemo200 : CbState := { reply := { responseCode := 200 } }

/-- An exchange whose in-callback status query fails. -/
def exGetinfoFail : Exchange :=
  { chunks := ["x"], liveCode := 200, finalCode := 200, getinfoOk := false,
    writeErrorMsg := "Failure writing output to destination" }

/-- C5 witness: the amended law applied to a failing sink write on a 200
body chunk, to the resulting aborted unrecorded exchange, and to a recorded
status-query failure that the engine surfaces verbatim. -/
theorem callback_error_paths_witness :
    ((writeCallbackStep reqSinkDemo.expectedResponseCode reqSinkDemo.hasDataSink
          exSinkFail.getinfoOk exSinkFail.liveCode false stDemo200 "ab").aborted
        = true
      ∧ (writeCallbackStep reqSinkDemo.expectedResponseCode
          reqSinkDemo.hasDataSink exSinkFail.getinfoOk exSinkFail.liveCode
          false stDemo200 "ab").reply.clientError = stDemo200.reply.clientError
      ∧ (writeCallbackStep reqSinkDemo.expectedResponseCode
          reqSinkDemo.hasDataSink exSinkFail.getinfoOk exSinkFail.liveCode
          false stDemo200 "ab").reply.responseCode
        = stDemo200.reply.responseCode)
      ∧ make parseDemo reqSinkDemo exSinkFail = .error exSinkFail.writeErrorMsg
      ∧ make parseDemo reqSinkDemo exGetinfoFail
        = .error (runWriteCallbacks reqSinkDemo exGetinfoFail).reply.clientError :=
  ⟨(callback_error_paths parseDemo reqSinkDemo exSinkFail stDemo200 "ab"
      false).1 rfl (by decide) rfl rfl rfl (by decide),
    (callback_error_paths parseDemo reqSinkDemo exSinkFail stDemo200 "ab"
      false).2.1 (by decide) rfl (by decide),
    (callback_error_paths parseDemo reqSinkDemo exGetinfoFail stDemo200 "ab"
      false).2.2 (by decide) rfl rfl⟩

end WebHDFSProof
